import Mathlib

/-!
Verification of the multifil half-sarcomere model against its specification.

This file gives a shallow embedding, in Lean 4, of the parts of the
multifil source that the spec claims C1..C10 are about:

* `src/multifil/mh - old.py` — the `Spring`, `Head` and `Crossbridge`
  classes (two-spring myosin head, three-state kinetics, rate functions,
  transition state machine, binding bookkeeping);
* `src/multifil/hs.py` — the `hs` half-sarcomere driver (z-line setter and
  Poisson lattice-spacing update, volume, serialization `to_dict` /
  `from_dict`, the `current_timestep` setter, the `run` loop, concentration
  bookkeeping, `resolve_address`);
* `src/multifil/aws/metas.py` — the activation-trace generator
  `actin_permissiveness_workloop`;
* `src/multifil/runHandler/run.py` — the batch driver `run_model`.

Python floats are embedded as real numbers; the stochastic draws
(`random.rand()` and the diffusive tip bop) are threaded explicitly as
arguments or cached fields; Python exceptions are modelled with `Except`
or `Option` results.  The thin/thick filament classes live in `af.py` /
`mf.py` / `ti.py`, which are not part of the sources; where one of their
members is needed it is modelled from the spec and marked
`Modelled from the spec:` in its doc comment.
-/

/-- Kinetic state of a myosin head: `'free' | 'loose' | 'tight'`
(`mh - old.py`, `Head.__init__` sets `self.state = "free"`). -/
inductive HState where
  | free
  | loose
  | tight
deriving DecidableEq, Repr

/-- The generic two-state spring of `mh - old.py`, class `Spring`.
Fields mirror the attributes set in `Spring.__init__`:  rest values
`r_w`/`r_s`, stiffnesses `k_w`/`k_s`, and the derived diffusion governors
`normalize` and `stand_dev` (computed there from `k_w` and `k_t`). -/
structure Spring where
  r_w : ℝ
  r_s : ℝ
  k_w : ℝ
  k_s : ℝ
  normalize : ℝ
  stand_dev : ℝ

/-- `Spring.rest` (`mh - old.py` lines 49-61).  The Python state selector is
a plain string; on a string outside `{"free","loose","tight"}` the method
issues `warnings.warn("Improper value for spring state")` and falls off the
end, returning `None`.  The result is the pair (returned value, warning
emitted). -/
def Spring.rest (sp : Spring) (state : String) : Option ℝ × Bool :=
  if state = "free" ∨ state = "loose" then (some sp.r_w, false)
  else if state = "tight" then (some sp.r_s, false)
  else (none, true)

/-- `Spring.constant` (`mh - old.py` lines 63-75): spring constant by state,
with the same warn-and-return-`None` fallthrough as `Spring.rest`. -/
def Spring.constant (sp : Spring) (state : String) : Option ℝ × Bool :=
  if state = "free" ∨ state = "loose" then (some sp.k_w, false)
  else if state = "tight" then (some sp.k_s, false)
  else (none, true)

/-- `Spring.energy` (`mh - old.py` lines 77-90): `½·k·(value − rest)²` in the
selected state, with the same warn-and-return-`None` fallthrough. -/
noncomputable def Spring.energy (sp : Spring) (spring_val : ℝ) (state : String) :
    Option ℝ × Bool :=
  if state = "free" ∨ state = "loose" then
    (some (0.5 * sp.k_w * (spring_val - sp.r_w) ^ 2), false)
  else if state = "tight" then
    (some (0.5 * sp.k_s * (spring_val - sp.r_s) ^ 2), false)
  else (none, true)

/-- `Spring.rest` restricted to the three strings that `Head.state` can
actually hold (the head kinetics below work over `HState`;
weak ↔ {free, loose}, strong ↔ {tight}). -/
def Spring.restK (sp : Spring) : HState → ℝ
  | HState.free => sp.r_w
  | HState.loose => sp.r_w
  | HState.tight => sp.r_s

/-- `Spring.constant` restricted to the three reachable states. -/
def Spring.constK (sp : Spring) : HState → ℝ
  | HState.free => sp.k_w
  | HState.loose => sp.k_w
  | HState.tight => sp.k_s

/-- `Spring.energy` restricted to the three reachable states. -/
noncomputable def Spring.energyK (sp : Spring) (spring_val : ℝ) : HState → ℝ
  | HState.free => 0.5 * sp.k_w * (spring_val - sp.r_w) ^ 2
  | HState.loose => 0.5 * sp.k_w * (spring_val - sp.r_w) ^ 2
  | HState.tight => 0.5 * sp.k_s * (spring_val - sp.r_s) ^ 2

/-- On the valid state strings, the string-keyed `Spring.rest` agrees with
its `HState` restriction and emits no warning. -/
theorem Spring.rest_valid (sp : Spring) :
    sp.rest "free" = (some (sp.restK HState.free), false)
    ∧ sp.rest "loose" = (some (sp.restK HState.loose), false)
    ∧ sp.rest "tight" = (some (sp.restK HState.tight), false) := by
  refine ⟨?_, ?_, ?_⟩ <;> simp [Spring.rest, Spring.restK]

/-- On the valid state strings, the string-keyed `Spring.energy` agrees with
its `HState` restriction and emits no warning. -/
theorem Spring.energy_valid (sp : Spring) (v : ℝ) :
    sp.energy v "free" = (some (sp.energyK v HState.free), false)
    ∧ sp.energy v "loose" = (some (sp.energyK v HState.loose), false)
    ∧ sp.energy v "tight" = (some (sp.energyK v HState.tight), false) := by
  refine ⟨?_, ?_, ?_⟩ <;> simp [Spring.energy, Spring.energyK]

/-- Claim C10: for every Spring and every state value outside
`{'free', 'loose', 'tight'}`, `Spring.rest`, `Spring.constant` and
`Spring.energy` issue a warning and return `None` instead of a number or an
exception. -/
theorem spring_invalid_state_warns_and_returns_none
    (sp : Spring) (v : ℝ) (state : String)
    (h : state ∉ (["free", "loose", "tight"] : List String)) :
    sp.rest state = (none, true)
    ∧ sp.constant state = (none, true)
    ∧ sp.energy v state = (none, true) := by
  simp only [List.mem_cons, List.mem_singleton, not_or] at h
  obtain ⟨h1, h2, h3⟩ := h
  refine ⟨?_, ?_, ?_⟩ <;>
    simp [Spring.rest, Spring.constant, Spring.energy, h1, h2, h3]

/-- A concrete spring used to instantiate universally quantified theorems. -/
def spring1 : Spring :=
  { r_w := 1, r_s := 1, k_w := 1, k_s := 1, normalize := 1, stand_dev := 1 }

/-- Witness for claim C10 at the concrete invalid state string `"banana"`. -/
theorem spring_invalid_state_warns_and_returns_none_witness :
    "banana" ∉ (["free", "loose", "tight"] : List String)
    ∧ (spring1.rest "banana" = (none, true)
       ∧ spring1.constant "banana" = (none, true)
       ∧ spring1.energy 0 "banana" = (none, true)) :=
  ⟨by decide,
   spring_invalid_state_warns_and_returns_none spring1 0 "banana" (by decide)⟩

/-! ## Activation-trace generator (`aws/metas.py`, claim C6) -/

/-- The decay rate of `actin_permissiveness_workloop`
(`metas.py` line 157): `np.log(1/2)/half_life`. -/
noncomputable def apw_decay_rate (half_life : ℝ) : ℝ :=
  Real.log (1 / 2) / half_life

/-- The growth rate of `actin_permissiveness_workloop` exactly as the source
computes it (`metas.py` line 158): `growth_rate = 0.5*influx_time`.
Note the multiplication. -/
noncomputable def apw_growth_rate (influx_time : ℝ) : ℝ :=
  0.5 * influx_time

/-- One stimulus-phase update of `actin_permissiveness_workloop`
(`metas.py` lines 185-187):
`growth = timestep_length * out[-1] * growth_rate * (1 - out[-1]/max_signal)`
followed by `out.append(out[-1] + growth)`. -/
noncomputable def apw_growth_update (dt x influx_time max_signal : ℝ) : ℝ :=
  x + dt * x * apw_growth_rate influx_time * (1 - x / max_signal)

/-- Modelled from the spec: the stimulus-phase update as the spec states it,
`x += dt·x·(0.5/influx_time)·(1 − x/max)`, i.e. with the growth-rate factor
equal to 0.5 DIVIDED by `influx_time`. -/
noncomputable def apw_growth_update_spec (dt x influx_time max_signal : ℝ) : ℝ :=
  x + dt * x * (0.5 / influx_time) * (1 - x / max_signal)

/-- Claim C6 (code bug): the source computes the growth-rate factor as
`0.5 * influx_time` (`metas.py` line 158) where the spec requires
`0.5 / influx_time`.  At the failing input `influx_time = 2`, `dt = 0.5`,
`x = 0.1`, `max_signal = 1` (the values used by
`treatment_definitions.t_spring` with `timestep_len = 0.5`), the code's
factor is `1` and its update yields `0.145`, while the specified factor is
`0.25` with update `0.11125`. -/
theorem apw_growth_rate_multiplies_not_divides :
    apw_growth_rate 2 = 1
    ∧ (0.5 / 2 : ℝ) = 0.25
    ∧ apw_growth_update 0.5 0.1 2 1 = 0.145
    ∧ apw_growth_update_spec 0.5 0.1 2 1 = 0.11125
    ∧ apw_growth_update 0.5 0.1 2 1 ≠ apw_growth_update_spec 0.5 0.1 2 1 := by
  refine ⟨?_, ?_, ?_, ?_, ?_⟩ <;>
    norm_num [apw_growth_update, apw_growth_update_spec, apw_growth_rate]

/-! ## Random-stream discipline (claim C8)

The sources draw all randomness from the process-wide numpy stream
(`numpy.random` in `mh - old.py`, `np.random` in `hs.py`).  Each relevant
constructor *re-seeds* that global stream from OS entropy:
`Spring.__init__` (line 20), `Head.__init__` (line 330),
`Crossbridge.__init__` (line 635) each call `random.seed()`, and
`hs.__init__` (line 161) calls `np.random.seed(None)`.  No seed parameter
is exposed anywhere.  The seeding/drawing calls are modelled as an event
trace. -/

/-- An operation on the process-wide numpy random stream. -/
inductive RngEvent where
  | seedNone
  | drawNormal
  | drawRand
deriving DecidableEq, Repr

/-- RNG events of `Spring.__init__` (`mh - old.py` line 20):
one `random.seed()` call, i.e. a re-seed of the global stream from OS
entropy. -/
def springInitRng : List RngEvent := [RngEvent.seedNone]

/-- RNG events of `Head.__init__` (`mh - old.py` lines 329-344): its own
`random.seed()` call, then the construction of the converter spring and the
globular spring (each re-seeding once). -/
def headInitRng : List RngEvent :=
  [RngEvent.seedNone] ++ springInitRng ++ springInitRng

/-- RNG events of `Crossbridge.__init__` (`mh - old.py` lines 631-635):
`super().__init__()` (the Head events) followed by its own `random.seed()`
call. -/
def crossbridgeInitRng : List RngEvent :=
  headInitRng ++ [RngEvent.seedNone]

/-- RNG seed event of `hs.__init__` (`hs.py` line 161):
`np.random.seed(None)`, again a re-seed of the process-wide stream from OS
entropy (followed by the `np.random.randint` draws for the filament
starts). -/
def hsInitSeedRng : List RngEvent := [RngEvent.seedNone]

/-- Counterexample to claim C8 as stated: constructing a single crossbridge
re-seeds the random stream four times (Crossbridge, Head, and the two
Springs), so the stream is not "seeded exactly once per run"; every one of
those seeds is a `seed(None)` entropy seed, and no seed parameter exists, so
two runs cannot be given "the same seed" at all. -/
theorem crossbridge_reseeds_four_times :
    crossbridgeInitRng.count RngEvent.seedNone = 4 ∧ (4 : ℕ) ≠ 1 := by
  decide

/-- Claim C8, amended: all randomness goes through the process-wide numpy
stream, which is re-seeded from OS entropy at construction time — once per
`Spring`, once more per `Head`, once more per `Crossbridge` (four entropy
seeds per crossbridge in total) and once in `hs.__init__` — and the API
exposes no seed, so seed-reproducibility is not provided. -/
theorem rng_reseeded_from_entropy_at_every_construction :
    crossbridgeInitRng =
      [RngEvent.seedNone, RngEvent.seedNone, RngEvent.seedNone, RngEvent.seedNone]
    ∧ hsInitSeedRng = [RngEvent.seedNone]
    ∧ springInitRng = [RngEvent.seedNone]
    ∧ headInitRng = [RngEvent.seedNone, RngEvent.seedNone, RngEvent.seedNone] := by
  decide

/-! ## Address resolution (`hs.py` lines 809-833, claim C7) -/

/-- An entity reachable from `hs.resolve_address`.  Thin- and thick-filament
internals live in the absent `af.py`/`mf.py`; a delegated resolution is
represented by the filament index together with the forwarded address. -/
inductive HsEntity where
  | thinFil (i : ℕ)
  | thinSub (kind : String) (i : ℕ) (rest : List ℕ)
  | thickFil (i : ℕ)
  | thickSub (kind : String) (i : ℕ) (rest : List ℕ)
deriving DecidableEq, Repr

/-- Outcome of a call to `hs.resolve_address`:  a found entity, the
warn-and-return-`None` fallthrough (`warnings.warn("Unresolvable address")`
followed by the implicit `return None`), or an uncaught exception
(e.g. `IndexError` from `self.thin[address[1]]`). -/
inductive ResolveResult where
  | found (e : HsEntity)
  | noneWarned
  | raised
deriving DecidableEq, Repr

/-- Modelled from the spec: `af.ThinFilament.resolve_address` (absent from
the sources) "must return the referenced entity" for the delegated kinds
`thin_face`, `bs`, `tm`, `tm_site`. -/
def thinResolve (i : ℕ) (kind : String) (rest : List ℕ) : ResolveResult :=
  ResolveResult.found (HsEntity.thinSub kind i rest)

/-- Modelled from the spec: `mf.ThickFilament.resolve_address` (absent from
the sources) returns the referenced entity for the delegated kinds
`crown`, `thick_face`, `xb`. -/
def thickResolve (i : ℕ) (kind : String) (rest : List ℕ) : ResolveResult :=
  ResolveResult.found (HsEntity.thickSub kind i rest)

/-- `hs.resolve_address` (`hs.py` lines 809-833).  The address is the kind
string followed by the index list; `nThin`/`nThick` are the lengths of the
`self.thin`/`self.thick` tuples (8 and 4 in a constructed half-sarcomere).
Dispatch: `thin_fil` indexes `self.thin`; `thin_face|bs|tm|tm_site`
delegates to the thin filament; `thick_fil` indexes `self.thick`;
`crown|thick_face|xb` delegates to the thick filament; any other kind
reaches the `warnings.warn("Unresolvable address: ...")` line and the
method returns `None` normally. -/
def hsResolveAddress (nThin nThick : ℕ) (kind : String) (rest : List ℕ) :
    ResolveResult :=
  if kind = "thin_fil" then
    match rest.head? with
    | none => ResolveResult.raised
    | some i => if i < nThin then ResolveResult.found (HsEntity.thinFil i)
                else ResolveResult.raised
  else if kind = "thin_face" ∨ kind = "bs" ∨ kind = "tm" ∨ kind = "tm_site" then
    match rest.head? with
    | none => ResolveResult.raised
    | some i => if i < nThin then thinResolve i kind rest
                else ResolveResult.raised
  else if kind = "thick_fil" then
    match rest.head? with
    | none => ResolveResult.raised
    | some i => if i < nThick then ResolveResult.found (HsEntity.thickFil i)
                else ResolveResult.raised
  else if kind = "crown" ∨ kind = "thick_face" ∨ kind = "xb" then
    match rest.head? with
    | none => ResolveResult.raised
    | some i => if i < nThick then thickResolve i kind rest
                else ResolveResult.raised
  else ResolveResult.noneWarned

/-- Counterexample to claim C7 as stated: for an unknown kind,
`resolve_address` does NOT raise — it emits the "Unresolvable address"
warning and returns `None` normally. -/
theorem resolve_address_unknown_kind_returns_normally :
    hsResolveAddress 8 4 "unicorn" [0] = ResolveResult.noneWarned
    ∧ ResolveResult.noneWarned ≠ ResolveResult.raised := by
  decide

/-- Claim C7, amended: for every address tuple, `hs.resolve_address` returns
the referenced entity when the kind is one of `thin_fil, thin_face, bs, tm,
tm_site, thick_fil, crown, thick_face, xb` (with an in-range filament
index), and for any other kind it emits an unresolvable-address warning and
returns `None` — a normal return, not an exception. -/
theorem resolve_address_dispatch (kind : String) (rest : List ℕ) :
    (kind ∉ (["thin_fil", "thin_face", "bs", "tm", "tm_site",
              "thick_fil", "crown", "thick_face", "xb"] : List String) →
      hsResolveAddress 8 4 kind rest = ResolveResult.noneWarned)
    ∧ (∀ i, rest.head? = some i → i < 8 →
        (kind = "thin_fil" →
          hsResolveAddress 8 4 kind rest = ResolveResult.found (HsEntity.thinFil i))
        ∧ ((kind = "thin_face" ∨ kind = "bs" ∨ kind = "tm" ∨ kind = "tm_site") →
          hsResolveAddress 8 4 kind rest =
            ResolveResult.found (HsEntity.thinSub kind i rest)))
    ∧ (∀ i, rest.head? = some i → i < 4 →
        (kind = "thick_fil" →
          hsResolveAddress 8 4 kind rest = ResolveResult.found (HsEntity.thickFil i))
        ∧ ((kind = "crown" ∨ kind = "thick_face" ∨ kind = "xb") →
          hsResolveAddress 8 4 kind rest =
            ResolveResult.found (HsEntity.thickSub kind i rest))) := by
  refine ⟨?_, ?_, ?_⟩
  · intro h
    simp only [List.mem_cons, List.mem_singleton, not_or] at h
    obtain ⟨h1, h2, h3, h4, h5, h6, h7, h8, h9⟩ := h
    simp [hsResolveAddress, h1, h2, h3, h4, h5, h6, h7, h8, h9]
  · intro i hi hlt
    constructor
    · intro hk
      subst hk
      simp [hsResolveAddress, hi, hlt]
    · intro hk
      have hne : kind ≠ "thin_fil" := by
        rcases hk with h | h | h | h <;> subst h <;> decide
      rcases hk with h | h | h | h <;> subst h <;>
        simp [hsResolveAddress, thinResolve, hi, hlt]
  · intro i hi hlt
    constructor
    · intro hk
      subst hk
      simp [hsResolveAddress, hi, hlt]
    · intro hk
      rcases hk with h | h | h <;> subst h <;>
        simp [hsResolveAddress, thickResolve, hi, hlt]

/-- Witness for (amended) claim C7: concrete resolutions of a known kind at
an in-range index and of an unknown kind. -/
theorem resolve_address_dispatch_witness :
    ([2] : List ℕ).head? = some 2 ∧ 2 < 8
    ∧ hsResolveAddress 8 4 "bs" [2] =
        ResolveResult.found (HsEntity.thinSub "bs" 2 [2])
    ∧ hsResolveAddress 8 4 "frobnicate" [2] = ResolveResult.noneWarned :=
  ⟨by decide, by decide,
   ((resolve_address_dispatch "bs" [2]).2.1 2 (by decide) (by decide)).2
     (by decide),
   (resolve_address_dispatch "frobnicate" [2]).1 (by decide)⟩

/-! ## The myosin head (`mh - old.py`, class `Head`; claims C2, C3) -/

/-- The two-argument arctangent `math.atan2 y x`, used by
`Head._seg_values`; embedded as the argument of the complex number
`x + y·i` (same value and branch cut as `math.atan2`). -/
noncomputable def atan2 (y x : ℝ) : ℝ :=
  Complex.arg ⟨x, y⟩

/-- `math.hypot a b = √(a² + b²)`. -/
noncomputable def hypot (a b : ℝ) : ℝ :=
  Real.sqrt (a ^ 2 + b ^ 2)

/-- The myosin head of `mh - old.py`, class `Head` (fields set in
`Head.__init__` lines 322-356, plus the parent-delegated properties).
`state` is the kinetic state; `c` and `g` are the converter and globular
springs; `alphaDG`/`etaDG` the free-energy constants; `br`/`dr` the
binding/detachment rate modifiers (`_br`/`_dr`); `tip` is the cached
unbound tip location `(x, y)` produced by the diffusive bop of
`Head._update_tip` (the stochastic sample is carried as data);
`timestep_len` is the timestep length the parent half-sarcomere supplies
through the `timestep_len` property. -/
structure Head where
  state : HState
  c : Spring
  g : Spring
  alphaDG : ℝ
  etaDG : ℝ
  tip : ℝ × ℝ
  br : ℝ
  dr : ℝ
  timestep_len : ℝ

/-- `Head._seg_values` (`mh - old.py` lines 602-612): the converter angle
`atan2(y, x)` and globular length `hypot(y, x)` of a tip location. -/
noncomputable def Head.seg_values (tip_location : ℝ × ℝ) : ℝ × ℝ :=
  (atan2 tip_location.2 tip_location.1, hypot tip_location.2 tip_location.1)

/-- `Head.energy` (`mh - old.py` lines 428-439) at an explicit state:
converter spring energy at the angle plus globular spring energy at the
length. -/
noncomputable def Head.energy (h : Head) (tip_location : ℝ × ℝ)
    (state : HState) : ℝ :=
  Spring.energyK h.c (Head.seg_values tip_location).1 state
    + Spring.energyK h.g (Head.seg_values tip_location).2 state

/-- `Head._free_energy` (`mh - old.py` lines 587-600): `0` when free,
`alphaDG + energy` when loose, `etaDG + energy` when tight. -/
noncomputable def Head.free_energy (h : Head) (tip_location : ℝ × ℝ) :
    HState → ℝ
  | HState.free => 0
  | HState.loose => h.alphaDG + h.energy tip_location HState.loose
  | HState.tight => h.etaDG + h.energy tip_location HState.tight

/-- `Head._prob` (`mh - old.py` lines 486-497): probability that a Poisson
event of the given per-ms rate occurs during one timestep,
`1 - exp(-rate * timestep_len)`. -/
noncomputable def Head.prob (h : Head) (rate : ℝ) : ℝ :=
  1 - Real.exp (-rate * h.timestep_len)

/-- `Head._bind` (`mh - old.py` lines 499-514): binding rate
`br · 72 · exp(−distance²)` where `distance` is the Euclidean distance from
the diffused unbound tip to the binding site. -/
noncomputable def Head.bind (h : Head) (bs : ℝ × ℝ) : ℝ :=
  h.br * (72 * Real.exp (-(hypot (bs.1 - h.tip.1) (bs.2 - h.tip.2)) ^ 2))

/-- The `try: rate = num/den except ZeroDivisionError: rate = 1` pattern of
`Head._r21` and `Head._r32` (`mh - old.py` lines 533-538 and 568-571):
division by an exactly-zero divisor is replaced by the default rate 1. -/
noncomputable def exceptDiv (num den : ℝ) : ℝ :=
  if den = 0 then 1 else num / den

/-- `Head._r23` (`mh - old.py` lines 541-556): power-stroke rate
`0.6 · (1 + tanh(6 + 0.2 · (E_loose − E_tight)))`. -/
noncomputable def Head.r23 (h : Head) (bs : ℝ × ℝ) : ℝ :=
  0.6 * (1 + Real.tanh (6 + 0.2 * (h.energy bs HState.loose - h.energy bs HState.tight)))

/-- `Head._r21` (`mh - old.py` lines 516-539): detailed-balance reverse rate
`bind(bs) / exp(G_free − G_loose)`, defaulting to 1 on division by zero. -/
noncomputable def Head.r21 (h : Head) (bs : ℝ × ℝ) : ℝ :=
  exceptDiv (h.bind bs)
    (Real.exp (h.free_energy bs HState.free - h.free_energy bs HState.loose))

/-- `Head._r32` (`mh - old.py` lines 558-572): detailed-balance reverse rate
`r23(bs) / exp(G_loose − G_tight)`, defaulting to 1 on division by zero. -/
noncomputable def Head.r32 (h : Head) (bs : ℝ × ℝ) : ℝ :=
  exceptDiv (h.r23 bs)
    (Real.exp (h.free_energy bs HState.loose - h.free_energy bs HState.tight))

/-- `Head._r31` (`mh - old.py` lines 574-585): unbinding rate
`dr · (√(0.01 · E_tight) + 0.02)`. -/
noncomputable def Head.r31 (h : Head) (bs : ℝ × ℝ) : ℝ :=
  h.dr * (Real.sqrt (0.01 * h.energy bs HState.tight) + 0.02)

/-- `Head.transition` (`mh - old.py` lines 358-388).  `bs` is the relative
crown-to-actin distance, `ap` the actin permissiveness, and `u` the single
uniform draw `check = random.rand()`.  The result is the head with its
(possibly) updated state together with the transition string `'12'`,
`'23'`, `'21'`, `'31'`, `'32'` or `None`. -/
noncomputable def Head.transition (h : Head) (bs : ℝ × ℝ) (ap u : ℝ) :
    Head × Option String :=
  match h.state with
  | HState.free =>
      if h.prob (h.bind bs) * ap > u then
        ({ h with state := HState.loose }, some "12")
      else (h, none)
  | HState.loose =>
      if h.prob (h.r23 bs) > u then
        ({ h with state := HState.tight }, some "23")
      else if 1 - h.prob (h.r21 bs) < u then
        ({ h with state := HState.free }, some "21")
      else (h, none)
  | HState.tight =>
      if h.prob (h.r31 bs) > u then
        ({ h with state := HState.free }, some "31")
      else if 1 - h.prob (h.r32 bs) < u then
        ({ h with state := HState.loose }, some "32")
      else (h, none)

/-- Unfolding `Head.transition` in the free state. -/
theorem Head.transition_of_free (h : Head) (bs : ℝ × ℝ) (ap u : ℝ)
    (hst : h.state = HState.free) :
    h.transition bs ap u =
      if h.prob (h.bind bs) * ap > u then
        ({ h with state := HState.loose }, some "12")
      else (h, none) := by
  unfold Head.transition
  rw [hst]

/-- Unfolding `Head.transition` in the loose state. -/
theorem Head.transition_of_loose (h : Head) (bs : ℝ × ℝ) (ap u : ℝ)
    (hst : h.state = HState.loose) :
    h.transition bs ap u =
      if h.prob (h.r23 bs) > u then
        ({ h with state := HState.tight }, some "23")
      else if 1 - h.prob (h.r21 bs) < u then
        ({ h with state := HState.free }, some "21")
      else (h, none) := by
  unfold Head.transition
  rw [hst]

/-- Unfolding `Head.transition` in the tight state. -/
theorem Head.transition_of_tight (h : Head) (bs : ℝ × ℝ) (ap u : ℝ)
    (hst : h.state = HState.tight) :
    h.transition bs ap u =
      if h.prob (h.r31 bs) > u then
        ({ h with state := HState.free }, some "31")
      else if 1 - h.prob (h.r32 bs) < u then
        ({ h with state := HState.loose }, some "32")
      else (h, none) := by
  unfold Head.transition
  rw [hst]

/-- Claim C2: `Head.transition` checks a single uniform draw `u` and takes
the first matching branch — free moves to loose iff `p(bind)·ap > u`; loose
moves to tight iff `p(r23) > u`, else to free iff `1 − p(r21) < u`; tight
moves to free iff `p(r31) > u`, else to loose iff `1 − p(r32) < u`;
otherwise the state is unchanged and `None` is returned — where
`p(rate) = 1 − exp(−rate·Δt)`. -/
theorem head_transition_first_match (h : Head) (bs : ℝ × ℝ) (ap u : ℝ) :
    (∀ r : ℝ, h.prob r = 1 - Real.exp (-r * h.timestep_len))
    ∧ (h.state = HState.free →
        ((h.transition bs ap u = ({ h with state := HState.loose }, some "12")
            ↔ h.prob (h.bind bs) * ap > u)
         ∧ (h.transition bs ap u = (h, none) ↔ ¬h.prob (h.bind bs) * ap > u)))
    ∧ (h.state = HState.loose →
        ((h.transition bs ap u = ({ h with state := HState.tight }, some "23")
            ↔ h.prob (h.r23 bs) > u)
         ∧ (h.transition bs ap u = ({ h with state := HState.free }, some "21")
            ↔ (¬h.prob (h.r23 bs) > u ∧ 1 - h.prob (h.r21 bs) < u))
         ∧ (h.transition bs ap u = (h, none)
            ↔ (¬h.prob (h.r23 bs) > u ∧ ¬1 - h.prob (h.r21 bs) < u))))
    ∧ (h.state = HState.tight →
        ((h.transition bs ap u = ({ h with state := HState.free }, some "31")
            ↔ h.prob (h.r31 bs) > u)
         ∧ (h.transition bs ap u = ({ h with state := HState.loose }, some "32")
            ↔ (¬h.prob (h.r31 bs) > u ∧ 1 - h.prob (h.r32 bs) < u))
         ∧ (h.transition bs ap u = (h, none)
            ↔ (¬h.prob (h.r31 bs) > u ∧ ¬1 - h.prob (h.r32 bs) < u)))) := by
  refine ⟨fun r => rfl, ?_, ?_, ?_⟩
  · intro hst
    rw [Head.transition_of_free h bs ap u hst]
    by_cases hc : h.prob (h.bind bs) * ap > u <;>
      simp [hc, Prod.ext_iff]
  · intro hst
    rw [Head.transition_of_loose h bs ap u hst]
    by_cases h23 : h.prob (h.r23 bs) > u
    · simp [h23, Prod.ext_iff]
    · by_cases h21 : 1 - h.prob (h.r21 bs) < u <;>
        simp [h23, h21, Prod.ext_iff]
  · intro hst
    rw [Head.transition_of_tight h bs ap u hst]
    by_cases h31 : h.prob (h.r31 bs) > u
    · simp [h31, Prod.ext_iff]
    · by_cases h32 : 1 - h.prob (h.r32 bs) < u <;>
        simp [h31, h32, Prod.ext_iff]

/-- A concrete free head used to instantiate universally quantified
theorems. -/
def head1 : Head :=
  { state := HState.free, c := spring1, g := spring1, alphaDG := 0,
    etaDG := 0, tip := (0, 0), br := 1, dr := 1, timestep_len := 1 }

/-- Witness for claim C2: at `ap = 0` and `u = 0` the free head's binding
check `p·0 > 0` fails and the transition returns `None` with the state
unchanged. -/
theorem head_transition_first_match_witness :
    head1.state = HState.free
    ∧ head1.transition (0, 0) 0 0 = (head1, none) :=
  ⟨rfl,
   ((head_transition_first_match head1 (0, 0) 0 0).2.1 rfl).2.mpr
     (by rw [mul_zero]; exact lt_irrefl 0)⟩

/-- Claim C3: the reverse rates satisfy detailed balance with the stated
free energies — `r21 = bind/exp(G_free − G_loose)` and
`r32 = r23/exp(G_loose − G_tight)` with `G_free = 0`,
`G_loose = αΔG + E_loose`, `G_tight = ηΔG + E_tight`; over the reals the
exponential divisor is never zero, so the division always goes through
(the computation is total — nothing is raised), and the
`except ZeroDivisionError` branch returns exactly 1 whenever a divisor
does evaluate to zero. -/
theorem head_reverse_rates_detailed_balance (h : Head) (bs : ℝ × ℝ) :
    h.r21 bs =
      h.bind bs /
        Real.exp (h.free_energy bs HState.free - h.free_energy bs HState.loose)
    ∧ h.r32 bs =
      h.r23 bs /
        Real.exp (h.free_energy bs HState.loose - h.free_energy bs HState.tight)
    ∧ h.free_energy bs HState.free = 0
    ∧ h.free_energy bs HState.loose = h.alphaDG + h.energy bs HState.loose
    ∧ h.free_energy bs HState.tight = h.etaDG + h.energy bs HState.tight
    ∧ (∀ num : ℝ, exceptDiv num 0 = 1) := by
  refine ⟨?_, ?_, rfl, rfl, rfl, ?_⟩
  · unfold Head.r21 exceptDiv
    rw [if_neg (Real.exp_ne_zero _)]
  · unfold Head.r32 exceptDiv
    rw [if_neg (Real.exp_ne_zero _)]
  · intro num
    unfold exceptDiv
    rw [if_pos rfl]

/-- The possible outcomes of `Head.transition` from the free state. -/
theorem Head.transition_free_cases (h : Head) (bs : ℝ × ℝ) (ap u : ℝ)
    (hst : h.state = HState.free) :
    h.transition bs ap u = ({ h with state := HState.loose }, some "12")
    ∨ h.transition bs ap u = (h, none) := by
  rw [Head.transition_of_free h bs ap u hst]
  by_cases hc : h.prob (h.bind bs) * ap > u
  · exact Or.inl (if_pos hc)
  · exact Or.inr (if_neg hc)

/-- The possible outcomes of `Head.transition` from the loose state. -/
theorem Head.transition_loose_cases (h : Head) (bs : ℝ × ℝ) (ap u : ℝ)
    (hst : h.state = HState.loose) :
    h.transition bs ap u = ({ h with state := HState.tight }, some "23")
    ∨ h.transition bs ap u = ({ h with state := HState.free }, some "21")
    ∨ h.transition bs ap u = (h, none) := by
  rw [Head.transition_of_loose h bs ap u hst]
  by_cases h23 : h.prob (h.r23 bs) > u
  · exact Or.inl (if_pos h23)
  · by_cases h21 : 1 - h.prob (h.r21 bs) < u
    · refine Or.inr (Or.inl ?_)
      rw [if_neg h23, if_pos h21]
    · refine Or.inr (Or.inr ?_)
      rw [if_neg h23, if_neg h21]

/-- The possible outcomes of `Head.transition` from the tight state. -/
theorem Head.transition_tight_cases (h : Head) (bs : ℝ × ℝ) (ap u : ℝ)
    (hst : h.state = HState.tight) :
    h.transition bs ap u = ({ h with state := HState.free }, some "31")
    ∨ h.transition bs ap u = ({ h with state := HState.loose }, some "32")
    ∨ h.transition bs ap u = (h, none) := by
  rw [Head.transition_of_tight h bs ap u hst]
  by_cases h31 : h.prob (h.r31 bs) > u
  · exact Or.inl (if_pos h31)
  · by_cases h32 : 1 - h.prob (h.r32 bs) < u
    · refine Or.inr (Or.inl ?_)
      rw [if_neg h31, if_pos h32]
    · refine Or.inr (Or.inr ?_)
      rw [if_neg h31, if_neg h32]

/-! ## The crossbridge (`mh - old.py`, class `Crossbridge`; claim C1) -/

/-- A thin-filament binding site as seen by a crossbridge.  The class lives
in the absent `af.py`; the fields the crossbridge reads are its axial
location, its permissiveness, and whether it is already bound by a
crossbridge. -/
structure BindingSite where
  axial_location : ℝ
  permissiveness : ℝ
  bound : Bool

/-- Modelled from the spec: `af.BindingSite.bind_to(xb)` (absent from the
sources) "succeeds only if currently free; returns the new binding record
or none" — the site refuses when already bound by another crossbridge. -/
def BindingSite.bind_to (s : BindingSite) : Option BindingSite :=
  if s.bound then none else some { s with bound := true }

/-- Modelled from the spec and the call site: `af.BindingSite.unbind`
(absent from the sources) dissolves the link and returns `None` — the
caller immediately runs `assert (self.bound_to is None)`
(`mh - old.py` line 783). -/
def BindingSite.unbind (_s : BindingSite) : Option BindingSite :=
  none

/-- Modelled from the spec: `af.ThinFace.nearest(x)` (absent from the
sources) "returns the site minimizing |site.x − x|"; ties keep the earlier
site. -/
noncomputable def nearestSite (sites : List BindingSite) (x : ℝ) :
    Option BindingSite :=
  sites.foldl
    (fun acc s =>
      match acc with
      | none => some s
      | some b =>
          if |s.axial_location - x| < |b.axial_location - x| then some s
          else some b)
    none

/-- The crossbridge of `mh - old.py`, class `Crossbridge`: a `Head` plus the
`bound_to` back-reference (`None` if unbound, the binding site otherwise).
The index/parent-face/thin-face bookkeeping is carried by the transition's
arguments. -/
structure Crossbridge where
  head : Head
  bound_to : Option BindingSite

/-- `Crossbridge.transition` (`mh - old.py` lines 737-786).  `face` is the
opposing thin face's binding-site list, `ls` the current lattice spacing
(`self._current_ls`), `xloc` the crossbridge's axial location
(`self.axial_location`), and `u` the uniform draw consumed by the inner
`Head.transition`.  When unbound it transitions against the nearest site
(reverting to free if the site refuses `bind_to`); when bound it
transitions against the bound site and unbinds on `'21'`/`'31'`.
The Python code stores the inner head transition in `trans`; here the
pure call is repeated where `trans` is read. -/
noncomputable def Crossbridge.transition (xb : Crossbridge)
    (face : List BindingSite) (ls xloc u : ℝ) : Crossbridge × Option String :=
  match xb.bound_to with
  | none =>
    match nearestSite face (xloc + xb.head.tip.1) with
    | none => (xb, none)
    | some actin_site =>
      if (xb.head.transition (actin_site.axial_location - xloc, ls)
            actin_site.permissiveness u).2 = some "12" then
        match actin_site.bind_to with
        | some b =>
          ({ head := (xb.head.transition (actin_site.axial_location - xloc, ls)
                actin_site.permissiveness u).1,
             bound_to := some b },
           (xb.head.transition (actin_site.axial_location - xloc, ls)
              actin_site.permissiveness u).2)
        | none =>
          ({ head := { (xb.head.transition (actin_site.axial_location - xloc, ls)
                actin_site.permissiveness u).1 with state := HState.free },
             bound_to := none },
           (xb.head.transition (actin_site.axial_location - xloc, ls)
              actin_site.permissiveness u).2)
      else
        ({ head := (xb.head.transition (actin_site.axial_location - xloc, ls)
              actin_site.permissiveness u).1,
           bound_to := none },
         (xb.head.transition (actin_site.axial_location - xloc, ls)
            actin_site.permissiveness u).2)
  | some site =>
    if (xb.head.transition (site.axial_location - xloc, ls)
          site.permissiveness u).2 = some "21"
       ∨ (xb.head.transition (site.axial_location - xloc, ls)
            site.permissiveness u).2 = some "31" then
      ({ head := (xb.head.transition (site.axial_location - xloc, ls)
            site.permissiveness u).1,
         bound_to := site.unbind },
       (xb.head.transition (site.axial_location - xloc, ls)
          site.permissiveness u).2)
    else
      ({ head := (xb.head.transition (site.axial_location - xloc, ls)
            site.permissiveness u).1,
         bound_to := some site },
       (xb.head.transition (site.axial_location - xloc, ls)
          site.permissiveness u).2)

/-- The crossbridge bound-state invariant of the spec:
`bound_to ≠ none ⇔ state ∈ {Loose, Tight}`. -/
def XbInv (xb : Crossbridge) : Prop :=
  xb.bound_to.isSome = true
    ↔ (xb.head.state = HState.loose ∨ xb.head.state = HState.tight)

/-- Claim C1: after every call to `Crossbridge.transition` the invariant
`bound_to ≠ none ⇔ state ∈ {loose, tight}` still holds; on a `'21'` or
`'31'` transition `bound_to` is set back to `None`; and when an unbound
crossbridge's free-to-loose attempt is refused by an already-bound site,
its state is reverted to free with `bound_to` still `None`. -/
theorem crossbridge_transition_keeps_bound_iff
    (xb : Crossbridge) (face : List BindingSite) (ls xloc u : ℝ)
    (hinv : XbInv xb) :
    XbInv (xb.transition face ls xloc u).1
    ∧ (((xb.transition face ls xloc u).2 = some "21"
        ∨ (xb.transition face ls xloc u).2 = some "31") →
        (xb.transition face ls xloc u).1.bound_to = none)
    ∧ (xb.bound_to = none →
        ∀ s, nearestSite face (xloc + xb.head.tip.1) = some s → s.bound = true →
          (xb.transition face ls xloc u).1.head.state = HState.free
          ∧ (xb.transition face ls xloc u).1.bound_to = none) := by
  cases hb : xb.bound_to with
  | none =>
    have hfree : xb.head.state = HState.free := by
      cases hx : xb.head.state
      · rfl
      · exact absurd (hinv.mpr (Or.inl hx)) (by simp [hb])
      · exact absurd (hinv.mpr (Or.inr hx)) (by simp [hb])
    cases hn : nearestSite face (xloc + xb.head.tip.1) with
    | none =>
      refine ⟨?_, ?_, ?_⟩
      · simpa [Crossbridge.transition, hb, hn] using hinv
      · simp [Crossbridge.transition, hb, hn]
      · intro _ s hs
        exact absurd hs (by simp)
    | some site =>
      rcases Head.transition_free_cases xb.head (site.axial_location - xloc, ls)
          site.permissiveness u hfree with hp | hp
      · -- the inner head transition fired: trans = '12'
        cases hbd : site.bind_to with
        | some b =>
          refine ⟨?_, ?_, ?_⟩
          · simp [Crossbridge.transition, hb, hn, hp, hbd, XbInv]
          · simp [Crossbridge.transition, hb, hn, hp, hbd]
          · intro _ s hs hsb
            injection hs with hs
            subst hs
            rw [BindingSite.bind_to, if_pos hsb] at hbd
            exact absurd hbd (by simp)
        | none =>
          refine ⟨?_, ?_, ?_⟩
          · simp [Crossbridge.transition, hb, hn, hp, hbd, XbInv]
          · simp [Crossbridge.transition, hb, hn, hp, hbd]
          · intro _ s hs hsb
            simp [Crossbridge.transition, hb, hn, hp, hbd]
      · -- no transition occurred: trans = None
        refine ⟨?_, ?_, ?_⟩
        · simp [Crossbridge.transition, hb, hn, hp, XbInv, hfree]
        · simp [Crossbridge.transition, hb, hn, hp]
        · intro _ s hs hsb
          simp [Crossbridge.transition, hb, hn, hp, hfree]
  | some site =>
    have hbound : xb.head.state = HState.loose ∨ xb.head.state = HState.tight :=
      hinv.mp (by simp [hb])
    rcases hbound with hst | hst
    · rcases Head.transition_loose_cases xb.head (site.axial_location - xloc, ls)
          site.permissiveness u hst with hp | hp | hp
      · refine ⟨?_, ?_, ?_⟩
        · simp [Crossbridge.transition, hb, hp, XbInv]
        · simp [Crossbridge.transition, hb, hp]
        · intro hnone
          exact absurd hnone (by simp)
      · refine ⟨?_, ?_, ?_⟩
        · simp [Crossbridge.transition, hb, hp, XbInv, BindingSite.unbind]
        · simp [Crossbridge.transition, hb, hp, BindingSite.unbind]
        · intro hnone
          exact absurd hnone (by simp)
      · refine ⟨?_, ?_, ?_⟩
        · simp [Crossbridge.transition, hb, hp, XbInv, hst]
        · simp [Crossbridge.transition, hb, hp]
        · intro hnone
          exact absurd hnone (by simp)
    · rcases Head.transition_tight_cases xb.head (site.axial_location - xloc, ls)
          site.permissiveness u hst with hp | hp | hp
      · refine ⟨?_, ?_, ?_⟩
        · simp [Crossbridge.transition, hb, hp, XbInv, BindingSite.unbind]
        · simp [Crossbridge.transition, hb, hp, BindingSite.unbind]
        · intro hnone
          exact absurd hnone (by simp)
      · refine ⟨?_, ?_, ?_⟩
        · simp [Crossbridge.transition, hb, hp, XbInv]
        · simp [Crossbridge.transition, hb, hp]
        · intro hnone
          exact absurd hnone (by simp)
      · refine ⟨?_, ?_, ?_⟩
        · simp [Crossbridge.transition, hb, hp, XbInv, hst]
        · simp [Crossbridge.transition, hb, hp]
        · intro hnone
          exact absurd hnone (by simp)

/-- A concrete unbound crossbridge facing a single already-bound site. -/
def xb1 : Crossbridge :=
  { head := head1, bound_to := none }

/-- A concrete binding site that is already bound by another crossbridge. -/
def site1 : BindingSite :=
  { axial_location := 0, permissiveness := 1, bound := true }

/-- Witness for claim C1: the invariant holds for the concrete unbound free
crossbridge `xb1` and is preserved by a transition against a single-site
face. -/
theorem crossbridge_transition_keeps_bound_iff_witness :
    XbInv xb1 ∧ XbInv (xb1.transition [site1] 14 0 0).1 :=
  ⟨by simp [XbInv, xb1, head1],
   (crossbridge_transition_keeps_bound_iff xb1 [site1] 14 0 0
      (by simp [XbInv, xb1, head1])).1⟩

/-! ## The half-sarcomere (`hs.py`, class `hs`; claims C4, C5, C9) -/

/-- The `time_dependence` dictionary accepted by `hs.__init__`
(`hs.py` lines 44-52): optional per-timestep traces for the keys
`"lattice_spacing"`, `"z_line"` and `"pCa"`; an absent field models an
absent key. -/
structure TimeDep where
  lattice_spacing : Option (List ℝ)
  z_line : Option (List ℝ)
  pCa : Option (List ℝ)

/-- The scalar state of a half-sarcomere (`hs.py`, attributes assigned in
`hs.__init__` and mutated by the methods below).  The thin/thick filament
objects live in the absent `af.py`/`mf.py`; their serialized payloads are
abstracted as the per-filament tropomyosin-site state lists (`thin`) and
crossbridge state lists (`thick`).  `titin_a`/`titin_b` are the parameters
handed to the 24 titin constructors (`ti_params`, `hs.py` lines 314-318).
Fields named `initial_z_line`, `z_line`, `lattice_spacing`, `volume` and
`current_timestep` model the private attributes `_initial_z_line`,
`_z_line`, `_lattice_spacing`, `_volume` and `_current_timestep`. -/
structure HS where
  version : ℝ
  time_dependence : Option TimeDep
  initial_z_line : ℝ
  initial_lattice_spacing : ℝ
  poisson : ℝ
  z_line : ℝ
  lattice_spacing : ℝ
  pCa : ℝ
  thin_starts : List ℕ
  thick_starts : List ℕ
  thin : List (List ℕ)
  thick : List (List HState)
  hiding_line : ℝ
  timestep_len : ℝ
  current_timestep : ℕ
  c_tn : Option ℝ
  c_ca : Option ℝ
  c_tnca : Option ℝ
  last_transitions : Option (List (Option String))
  volume : ℝ
  titin_a : Option ℝ
  titin_b : Option ℝ

/-- `hs.update_ls_from_poisson_ratio` (`hs.py` lines 765-802): set
`ls = (ls₀ + β)·(z₀/(z₀ + Δz))^ν − β` with `β = 0.5·(9 + 16)`. -/
noncomputable def HS.update_ls_from_poisson (s : HS) : HS :=
  { s with lattice_spacing :=
      (s.initial_lattice_spacing + 0.5 * (9 + 16)) *
          (s.initial_z_line / (s.initial_z_line + (s.z_line - s.initial_z_line)))
            ^ s.poisson
        - 0.5 * (9 + 16) }

/-- The fluid-volume formula of `hs.update_volume` (`hs.py` lines 649-667):
`edge = 9/2 + 16/2 + ls`, `area = 4·(3/2)·√3·edge²`,
`fluid = (area·length − 10·π·22659.75 − 4·π·58624)·1e-24`. -/
noncomputable def hsVolume (ls length : ℝ) : ℝ :=
  (4 * 3 / 2 * Real.sqrt 3 * (9 / 2 + 16 / 2 + ls) * (9 / 2 + 16 / 2 + ls) * length
      - (10 * (Real.pi * 22659.75) + 4 * (Real.pi * 58624)))
    * 1e-24

/-- `hs.update_volume` (`hs.py` lines 649-667): recompute `_volume` from the
current `_lattice_spacing` and `_z_line`. -/
noncomputable def HS.update_volume (s : HS) : HS :=
  { s with volume := hsVolume s.lattice_spacing s.z_line }

/-- The `hs.z_line` property setter (`hs.py` lines 560-565): assign
`_z_line`, then `update_ls_from_poisson_ratio()`, then `update_volume()`. -/
noncomputable def HS.set_z_line (s : HS) (new_z_line : ℝ) : HS :=
  HS.update_volume (HS.update_ls_from_poisson { s with z_line := new_z_line })

/-- `hs._tnca_count` (`hs.py` lines 581-589): the number of tropomyosin
sites whose state is not 0, over all thin filaments. -/
def HS.tnca_count (s : HS) : ℕ :=
  (s.thin.map (fun tm => (tm.filter (fun st => st ≠ 0)).length)).sum

/-- `hs._tn_total` (`hs.py` lines 591-597): the total number of tropomyosin
sites. -/
def HS.tn_total (s : HS) : ℕ :=
  (s.thin.map List.length).sum

/-- `hs._tn_count` (`hs.py` lines 577-579): `_tn_total - _tnca_count`. -/
def HS.tn_count (s : HS) : ℕ :=
  s.tn_total - s.tnca_count

/-- `hs.update_concentrations` (`hs.py` lines 599-602):
`c_tn = _tn_count/volume`, `c_ca = 10^(−pCa)`, `c_tnca = _tnca_count/volume`
(the unset placeholders from `__init__` become real values). -/
noncomputable def HS.update_concentrations (s : HS) : HS :=
  { s with
    c_tn := some ((s.tn_count : ℝ) / s.volume),
    c_ca := some ((10 : ℝ) ^ (-s.pCa)),
    c_tnca := some ((s.tnca_count : ℝ) / s.volume) }

/-- Modelled from the spec: `af.ThinFilament.permissiveness` (absent from
the sources) — per-site permissiveness is 1 iff the tropomyosin state is 2,
reported as the mean over the filament's sites. -/
noncomputable def thinPermissiveness (tmStates : List ℕ) : ℝ :=
  ((tmStates.filter (fun st => st = 2)).length : ℝ) / (tmStates.length : ℝ)

/-- The `np.mean(self.actin_permissiveness)` computed by `hs.to_dict`
(`hs.py` line 390) over the per-thin-filament permissiveness list. -/
noncomputable def meanActinPermissiveness (thin : List (List ℕ)) : ℝ :=
  (thin.map thinPermissiveness).sum / (thin.length : ℝ)

/-- The dictionary produced by `hs.to_dict` (`hs.py` lines 367-393):
`self.__dict__.copy()` — every attribute of `HS` — plus the derived
`actin_permissiveness` mean; the thick/thin entries hold the filaments'
serialized payloads. -/
structure HSDict where
  version : ℝ
  time_dependence : Option TimeDep
  initial_z_line : ℝ
  initial_lattice_spacing : ℝ
  poisson : ℝ
  z_line : ℝ
  lattice_spacing : ℝ
  pCa : ℝ
  thin_starts : List ℕ
  thick_starts : List ℕ
  thin : List (List ℕ)
  thick : List (List HState)
  hiding_line : ℝ
  timestep_len : ℝ
  current_timestep : ℕ
  c_tn : Option ℝ
  c_ca : Option ℝ
  c_tnca : Option ℝ
  last_transitions : Option (List (Option String))
  volume : ℝ
  titin_a : Option ℝ
  titin_b : Option ℝ
  actin_permissiveness : ℝ

/-- `hs.to_dict` (`hs.py` lines 367-393). -/
noncomputable def HS.to_dict (s : HS) : HSDict :=
  { version := s.version, time_dependence := s.time_dependence,
    initial_z_line := s.initial_z_line,
    initial_lattice_spacing := s.initial_lattice_spacing,
    poisson := s.poisson, z_line := s.z_line,
    lattice_spacing := s.lattice_spacing, pCa := s.pCa,
    thin_starts := s.thin_starts, thick_starts := s.thick_starts,
    thin := s.thin, thick := s.thick, hiding_line := s.hiding_line,
    timestep_len := s.timestep_len, current_timestep := s.current_timestep,
    c_tn := s.c_tn, c_ca := s.c_ca, c_tnca := s.c_tnca,
    last_transitions := s.last_transitions, volume := s.volume,
    titin_a := s.titin_a, titin_b := s.titin_b,
    actin_permissiveness := meanActinPermissiveness s.thin }

/-- One `time_dependence` key application inside the `current_timestep`
setter (`hs.py` lines 540-546): an absent key is skipped; a present key is
indexed at `i`, raising `IndexError` (modelled as `Except.error`) when `i`
is out of range. -/
noncomputable def applyKey (upd : HS → ℝ → HS) (o : Option (List ℝ)) (i : ℕ)
    (s : HS) : Except Unit HS :=
  match o with
  | none => Except.ok s
  | some l =>
    match l[i]? with
    | some v => Except.ok (upd s v)
    | none => Except.error ()

/-- The `hs.current_timestep` property setter (`hs.py` lines 533-548):
update the hiding line, then apply the `lattice_spacing`, `z_line` and
`pCa` traces at index `i` (the `z_line` assignment goes through the
`z_line` property, i.e. `HS.set_z_line`), then record `_current_timestep`.
`hidingOf` models `update_hiding_line`'s recomputation
`-min(min(thin.axial))`, whose thin-filament axial data lives in the
absent `af.py`. -/
noncomputable def HS.setCurrentTimestep (hidingOf : List (List ℕ) → ℝ)
    (s : HS) (i : ℕ) : Except Unit HS := do
  let s0 := { s with hiding_line := hidingOf s.thin }
  match s0.time_dependence with
  | none => pure { s0 with current_timestep := i }
  | some td => do
    let s1 ← applyKey (fun x v => { x with lattice_spacing := v })
      td.lattice_spacing i s0
    let s2 ← applyKey (fun x v => x.set_z_line v) td.z_line i s1
    let s3 ← applyKey (fun x v => { x with pCa := v }) td.pCa i s2
    pure { s3 with current_timestep := i }

/-- The initial-value override of `hs.__init__` (`hs.py` lines 132-138):
a present `time_dependence` key replaces the passed initial value by the
trace's entry 0. -/
noncomputable def tdHead (key : Option (List ℝ)) (arg : Option ℝ) :
    Except Unit (Option ℝ) :=
  match key with
  | none => Except.ok arg
  | some l =>
    match l.get? 0 with
    | some v => Except.ok (some v)
    | none => Except.error ()

/-- `hs.__init__` (`hs.py` lines 29-365) at the half-sarcomere level.
`hidingOf` models `update_hiding_line`; `freshThin`/`freshThick` are the
payloads of the freshly constructed thin/thick filaments (their
constructors live in the absent `af.py`/`mf.py`; both payloads are
overwritten when loading a snapshot).  The `starts` argument is taken as
given (a `None` `starts` draws `np.random.randint` values — a random-stream
effect).  Steps: trace overrides of the initial values, `None` defaults
(14.0, 1250, 4.0, 0.0), recording of initial values, plain
`lattice_spacing` assignment, the `z_line` property assignment (Poisson
update + volume), the `current_timestep = 0` property assignment (indexing
the traces at 0), concentration placeholders (`c_ca` is left as the
un-updated `(None,)` placeholder of line 358), and a final
`update_volume`. -/
noncomputable def initHS (hidingOf : List (List ℕ) → ℝ)
    (freshThin : List (List ℕ)) (freshThick : List (List HState))
    (lattice_spacing? z_line? pCa? poisson? : Option ℝ) (timestep_len : ℝ)
    (td : Option TimeDep) (starts : List ℕ × List ℕ)
    (ti_params : Option (ℝ × ℝ)) : Except Unit HS := do
  let lsArg ← match td with
    | none => pure lattice_spacing?
    | some t => tdHead t.lattice_spacing lattice_spacing?
  let zArg ← match td with
    | none => pure z_line?
    | some t => tdHead t.z_line z_line?
  let pCaArg ← match td with
    | none => pure pCa?
    | some t => tdHead t.pCa pCa?
  let ls := lsArg.getD 14.0
  let z := zArg.getD 1250
  let pCa := pCaArg.getD 4.0
  let nu := poisson?.getD 0.0
  let s : HS :=
    { version := 1.4, time_dependence := td,
      initial_z_line := z, initial_lattice_spacing := ls, poisson := nu,
      z_line := z, lattice_spacing := ls, pCa := pCa,
      thin_starts := starts.1, thick_starts := starts.2,
      thin := freshThin, thick := freshThick,
      hiding_line := hidingOf freshThin, timestep_len := timestep_len,
      current_timestep := 0,
      c_tn := none, c_ca := none, c_tnca := none,
      last_transitions := none, volume := 0,
      titin_a := ti_params.map Prod.fst, titin_b := ti_params.map Prod.snd }
  let s := s.set_z_line z
  let s ← HS.setCurrentTimestep hidingOf s 0
  pure s.update_volume

/-- `hs.from_dict` (`hs.py` lines 395-426): re-run `__init__` from the
saved configuration (note: `ti_params` is NOT passed through), then restore
`current_timestep` (through the property setter), `_z_line`,
`_lattice_spacing`, `hiding_line` and `last_transitions`, and finally the
thick/thin sub-structures (their `from_dict`s live in the absent
`af.py`/`mf.py`; Modelled from the spec round-trip requirement, they
restore the serialized payload).  The version check only warns.  The
concentration fields `c_tn`, `c_ca`, `c_tnca` are never restored. -/
noncomputable def HS.from_dict (hidingOf : List (List ℕ) → ℝ)
    (freshThin : List (List ℕ)) (freshThick : List (List HState))
    (sd : HSDict) : Except Unit HS := do
  let s ← initHS hidingOf freshThin freshThick
    (some sd.initial_lattice_spacing) (some sd.initial_z_line)
    (some sd.pCa) (some sd.poisson) sd.timestep_len sd.time_dependence
    (sd.thin_starts, sd.thick_starts) none
  let s ← HS.setCurrentTimestep hidingOf s sd.current_timestep
  let s := { s with z_line := sd.z_line }
  let s := { s with lattice_spacing := sd.lattice_spacing }
  let s := { s with hiding_line := sd.hiding_line }
  let s := { s with last_transitions := sd.last_transitions }
  pure { s with thin := sd.thin, thick := sd.thick }

/-- Claim C4: every assignment to `hs.z_line` updates `lattice_spacing` to
`(ls₀ + β)·(z₀/(z₀ + Δz))^ν − β` with `β = 0.5·(9+16) = 12.5`,
`Δz = z_line − z₀`; the setter also records the new z-line. -/
theorem z_line_setter_updates_lattice_spacing (s : HS) (z : ℝ) :
    (s.set_z_line z).lattice_spacing =
      (s.initial_lattice_spacing + 12.5) *
          (s.initial_z_line / (s.initial_z_line + (z - s.initial_z_line)))
            ^ s.poisson
        - 12.5
    ∧ (0.5 * (9 + 16) : ℝ) = 12.5
    ∧ (s.set_z_line z).z_line = z := by
  refine ⟨?_, by norm_num, rfl⟩
  show (s.initial_lattice_spacing + 0.5 * (9 + 16)) *
        (s.initial_z_line / (s.initial_z_line + (z - s.initial_z_line)))
          ^ s.poisson
      - 0.5 * (9 + 16) = _
  norm_num

/-- Computation of `HS.from_dict` on a snapshot with no `time_dependence`:
the boundary fields are restored from the snapshot, but the concentration
caches come back as the `__init__` placeholders, the titin parameters are
dropped, and the volume cache is the one computed by `__init__` from the
initial geometry. -/
theorem from_dict_no_td (hid : List (List ℕ) → ℝ) (fT : List (List ℕ))
    (fK : List (List HState)) (sd : HSDict)
    (h : sd.time_dependence = none) :
    HS.from_dict hid fT fK sd = Except.ok
      { version := 1.4, time_dependence := none,
        initial_z_line := sd.initial_z_line,
        initial_lattice_spacing := sd.initial_lattice_spacing,
        poisson := sd.poisson, z_line := sd.z_line,
        lattice_spacing := sd.lattice_spacing, pCa := sd.pCa,
        thin_starts := sd.thin_starts, thick_starts := sd.thick_starts,
        thin := sd.thin, thick := sd.thick,
        hiding_line := sd.hiding_line, timestep_len := sd.timestep_len,
        current_timestep := sd.current_timestep,
        c_tn := none, c_ca := none, c_tnca := none,
        last_transitions := sd.last_transitions,
        volume := hsVolume
          ((sd.initial_lattice_spacing + 0.5 * (9 + 16)) *
              (sd.initial_z_line /
                  (sd.initial_z_line + (sd.initial_z_line - sd.initial_z_line)))
                ^ sd.poisson
            - 0.5 * (9 + 16)) sd.initial_z_line,
        titin_a := none, titin_b := none } := by
  unfold HS.from_dict initHS
  rw [h]
  rfl

/-- A concrete freshly-initialized half-sarcomere state (no time
dependence, default geometry, concentration placeholders still unset). -/
def hsBase : HS :=
  { version := 1.4, time_dependence := none, initial_z_line := 1250,
    initial_lattice_spacing := 14, poisson := 0, z_line := 1250,
    lattice_spacing := 14, pCa := 4, thin_starts := [], thick_starts := [],
    thin := [], thick := [], hiding_line := 0, timestep_len := 1,
    current_timestep := 0, c_tn := none, c_ca := none, c_tnca := none,
    last_transitions := none, volume := 1, titin_a := none, titin_b := none }

/-- The state `hsBase` after `hs.update_concentrations()` has run (as it
does on every timestep): the concentration caches now hold real values. -/
noncomputable def hsAfterConc : HS :=
  HS.update_concentrations hsBase

/-- Counterexample to claim C5 as stated: for the reachable half-sarcomere
`hsAfterConc` (one `update_concentrations` call after construction),
`to_dict(from_dict(to_dict(hs)))` differs from `to_dict(hs)` — `from_dict`
resets `c_ca` to the unset placeholder, which is not a random-stream
position. -/
theorem hs_roundtrip_counterexample :
    Except.map HS.to_dict
        (HS.from_dict (fun _ => 0) [] [] (HS.to_dict hsAfterConc))
      ≠ Except.ok (HS.to_dict hsAfterConc) := by
  rw [from_dict_no_td (fun _ => 0) [] [] _ rfl]
  intro hEq
  simp only [Except.map] at hEq
  injection hEq with hEq
  have h1 := congrArg HSDict.c_ca hEq
  simp [HS.to_dict, hsAfterConc, HS.update_concentrations] at h1

/-- Claim C5, amended: for a half-sarcomere snapshot taken with no
`time_dependence`, at model version 1.4, with a nonzero initial z-line and
a volume cache consistent with the initial geometry, reconstruction via
`from_dict` restores every field of the state EXCEPT the derived
concentration caches `c_tn`, `c_ca`, `c_tnca` (reset to their `__init__`
placeholders) and the titin parameters (`from_dict` does not pass
`ti_params` back to `__init__`); the random stream position is likewise not
persisted. -/
theorem hs_roundtrip_restores_all_but_caches (hid : List (List ℕ) → ℝ)
    (fT : List (List ℕ)) (fK : List (List HState)) (s : HS)
    (h_td : s.time_dependence = none)
    (h_ver : s.version = 1.4)
    (h_z0 : s.initial_z_line ≠ 0)
    (h_vol : s.volume = hsVolume s.initial_lattice_spacing s.initial_z_line) :
    HS.from_dict hid fT fK (HS.to_dict s) =
      Except.ok { s with c_tn := none, c_ca := none, c_tnca := none,
                         titin_a := none, titin_b := none } := by
  rw [from_dict_no_td hid fT fK _ (by simpa [HS.to_dict] using h_td)]
  have hls : (s.initial_lattice_spacing + 0.5 * (9 + 16)) *
        (s.initial_z_line / (s.initial_z_line + (s.initial_z_line - s.initial_z_line)))
          ^ s.poisson
      - 0.5 * (9 + 16) = s.initial_lattice_spacing := by
    rw [sub_self, add_zero, div_self h_z0, Real.one_rpow, mul_one,
      add_sub_cancel_right]
  simp only [HS.to_dict]
  rw [hls, ← h_vol, ← h_ver, ← h_td]

/-- A concrete snapshot-consistent half-sarcomere state: `hsBase` with its
volume cache set to the value `update_volume` computes for its geometry. -/
noncomputable def hsWit : HS :=
  { hsBase with volume := hsVolume 14 1250 }

/-- Witness for (amended) claim C5: the round trip at the concrete state
`hsWit` restores everything except the concentration caches and titin
parameters. -/
theorem hs_roundtrip_restores_all_but_caches_witness :
    hsWit.time_dependence = none
    ∧ hsWit.version = 1.4
    ∧ hsWit.initial_z_line ≠ 0
    ∧ HS.from_dict (fun _ => 0) [] [] (HS.to_dict hsWit) =
        Except.ok { hsWit with c_tn := none, c_ca := none, c_tnca := none,
                               titin_a := none, titin_b := none } :=
  ⟨rfl, rfl, by norm_num [hsWit, hsBase],
   hs_roundtrip_restores_all_but_caches (fun _ => 0) [] [] hsWit rfl rfl
     (by norm_num [hsWit, hsBase]) rfl⟩


/-! ## The timestep loop and time-dependence indexing (claim C9) -/

/-- Sequencing a successful `Except` computation. -/
theorem except_bind_ok {ε α β : Type} (a : α) (f : α → Except ε β) :
    (Except.ok a : Except ε α) >>= f = f a := rfl

/-- Sequencing a failed `Except` computation. -/
theorem except_bind_err {ε α β : Type} (e : ε) (f : α → Except ε β) :
    (Except.error e : Except ε α) >>= f = Except.error e := rfl

/-- The `pure` of the `Except` monad is `Except.ok`. -/
theorem except_pure_def {ε α : Type} (a : α) :
    (pure a : Except ε α) = Except.ok a := rfl

/-- `Except.pure` is `Except.ok`. -/
theorem except_pure_def2 {ε α : Type} (a : α) :
    (Except.pure a : Except ε α) = Except.ok a := rfl

/-- A kinetic phase of `hs.timestep` leaves the clock and the
time-dependence configuration alone (the thick/thin transitions and
`settle` touch neither). -/
def PreservesBC (f : HS → HS) : Prop :=
  ∀ x, (f x).current_timestep = x.current_timestep
    ∧ (f x).time_dependence = x.time_dependence

/-- A `time_dependence` key is either absent or a trace of length `L`. -/
def KeyLen (o : Option (List ℝ)) (L : ℕ) : Prop :=
  o = none ∨ ∃ l, o = some l ∧ l.length = L

/-- Unfolding of the `current_timestep` setter when a `time_dependence`
dictionary is present. -/
theorem setCurrentTimestep_eq (hid : List (List ℕ) → ℝ) (s : HS) (i : ℕ)
    (td : TimeDep) (hstd : s.time_dependence = some td) :
    HS.setCurrentTimestep hid s i =
      (do
        let s1 ← applyKey (fun x v => { x with lattice_spacing := v })
          td.lattice_spacing i { s with hiding_line := hid s.thin }
        let s2 ← applyKey (fun x v => x.set_z_line v) td.z_line i s1
        let s3 ← applyKey (fun x v => { x with pCa := v }) td.pCa i s2
        pure { s3 with current_timestep := i }) := by
  simp only [HS.setCurrentTimestep, hstd]

/-- `applyKey` skips an absent key. -/
theorem applyKey_none (upd : HS → ℝ → HS) (i : ℕ) (s : HS) :
    applyKey upd none i s = Except.ok s := rfl

/-- `applyKey` succeeds on an in-range index. -/
theorem applyKey_ok_of_lt (upd : HS → ℝ → HS) (o : Option (List ℝ)) (i : ℕ)
    (s : HS) (L : ℕ) (h : KeyLen o L) (hi : i < L) :
    ∃ s', applyKey upd o i s = Except.ok s' := by
  rcases h with h | ⟨l, rfl, hlen⟩
  · subst h
    exact ⟨s, rfl⟩
  · have hi' : i < l.length := by rw [hlen]; exact hi
    exact ⟨upd s l[i], by simp [applyKey, List.getElem?_eq_getElem hi']⟩

/-- `applyKey` raises `IndexError` on a present key with an out-of-range
index. -/
theorem applyKey_err_of_le (upd : HS → ℝ → HS) (i : ℕ) (s : HS) (L : ℕ)
    (l : List ℝ) (hlen : l.length = L) (hi : L ≤ i) :
    applyKey upd (some l) i s = Except.error () := by
  have hnone : l[i]? = none := List.getElem?_eq_none (by rw [hlen]; exact hi)
  simp [applyKey, hnone]

/-- A successful `applyKey` preserves the clock and configuration when the
update does. -/
theorem applyKey_ok_fields (upd : HS → ℝ → HS) (o : Option (List ℝ)) (i : ℕ)
    (s s' : HS)
    (hupd : ∀ x v, (upd x v).current_timestep = x.current_timestep
      ∧ (upd x v).time_dependence = x.time_dependence)
    (h : applyKey upd o i s = Except.ok s') :
    s'.current_timestep = s.current_timestep
    ∧ s'.time_dependence = s.time_dependence := by
  cases o with
  | none =>
    simp only [applyKey] at h
    injection h with h
    subst h
    exact ⟨rfl, rfl⟩
  | some l =>
    cases hv : l[i]? with
    | some v =>
      simp only [applyKey, hv] at h
      injection h with h
      subst h
      exact hupd s v
    | none =>
      simp [applyKey, hv] at h

/-- The `current_timestep` setter succeeds exactly on indices inside every
present trace, recording the new index and preserving the configuration. -/
theorem setCurrentTimestep_ok_of_lt (hid : List (List ℕ) → ℝ) (s : HS)
    (td : TimeDep) (i L : ℕ) (hstd : s.time_dependence = some td)
    (h1 : KeyLen td.lattice_spacing L) (h2 : KeyLen td.z_line L)
    (h3 : KeyLen td.pCa L) (hi : i < L) :
    ∃ s', HS.setCurrentTimestep hid s i = Except.ok s'
      ∧ s'.current_timestep = i ∧ s'.time_dependence = some td := by
  obtain ⟨s1, hs1⟩ := applyKey_ok_of_lt (fun x v => { x with lattice_spacing := v })
    td.lattice_spacing i { s with hiding_line := hid s.thin } L h1 hi
  obtain ⟨s2, hs2⟩ := applyKey_ok_of_lt (fun x v => x.set_z_line v)
    td.z_line i s1 L h2 hi
  obtain ⟨s3, hs3⟩ := applyKey_ok_of_lt (fun x v => { x with pCa := v })
    td.pCa i s2 L h3 hi
  have p1 := applyKey_ok_fields (fun x v => { x with lattice_spacing := v })
    td.lattice_spacing i { s with hiding_line := hid s.thin } s1
    (fun x v => ⟨rfl, rfl⟩) hs1
  have p2 := applyKey_ok_fields (fun x v => x.set_z_line v)
    td.z_line i s1 s2 (fun x v => ⟨rfl, rfl⟩) hs2
  have p3 := applyKey_ok_fields (fun x v => { x with pCa := v })
    td.pCa i s2 s3 (fun x v => ⟨rfl, rfl⟩) hs3
  refine ⟨{ s3 with current_timestep := i }, ?_, rfl, ?_⟩
  · rw [setCurrentTimestep_eq hid s i td hstd]
    simp only [hs1, hs2, hs3, except_bind_ok, except_pure_def]
  · show s3.time_dependence = some td
    rw [p3.2, p2.2, p1.2]
    exact hstd

/-- The `current_timestep` setter raises `IndexError` when the index falls
outside a present trace. -/
theorem setCurrentTimestep_err_of_le (hid : List (List ℕ) → ℝ) (s : HS)
    (td : TimeDep) (i L : ℕ) (hstd : s.time_dependence = some td)
    (h1 : KeyLen td.lattice_spacing L) (h2 : KeyLen td.z_line L)
    (h3 : KeyLen td.pCa L)
    (hone : td.lattice_spacing ≠ none ∨ td.z_line ≠ none ∨ td.pCa ≠ none)
    (hi : L ≤ i) :
    HS.setCurrentTimestep hid s i = Except.error () := by
  rw [setCurrentTimestep_eq hid s i td hstd]
  rcases h1 with e1 | ⟨l1, e1, len1⟩
  · rcases h2 with e2 | ⟨l2, e2, len2⟩
    · rcases h3 with e3 | ⟨l3, e3, len3⟩
      · exfalso
        rcases hone with h | h | h
        exacts [h e1, h e2, h e3]
      · rw [e1, e2, e3]
        simp only [applyKey_none, except_bind_ok,
          applyKey_err_of_le _ i _ L l3 len3 hi, except_bind_err]
    · rw [e1, e2]
      simp only [applyKey_none, except_bind_ok,
        applyKey_err_of_le _ i _ L l2 len2 hi, except_bind_err]
  · rw [e1]
    simp only [applyKey_err_of_le _ i _ L l1 len1 hi, except_bind_err]

/-- `hs.timestep` (`hs.py` lines 501-526): `self.current_timestep += 1`
(the property setter applies the boundary conditions at the incremented
index and can raise `IndexError`), then the thick-filament transitions
(`mf.py`, absent — abstracted as `kin1`), `update_concentrations`
(in `hs.py`), and the thin-filament transitions plus `settle` (absent —
abstracted as `kin2`). -/
noncomputable def HS.timestepModel (hid : List (List ℕ) → ℝ)
    (kin1 kin2 : HS → HS) (s : HS) : Except Unit HS := do
  let s1 ← HS.setCurrentTimestep hid s (s.current_timestep + 1)
  pure (kin2 (HS.update_concentrations (kin1 s1)))

/-- `hs.run` (`hs.py` lines 428-481): run `time_steps` timesteps, appending
one callback record after each successful step; an exception inside a step
is caught and the accumulated output is returned with exit status 1
(`return output, 1`); completion returns status 0.  The result is
(number of successful steps ≙ callback records, final state, exit
status). -/
noncomputable def HS.runModel (hid : List (List ℕ) → ℝ)
    (kin1 kin2 : HS → HS) : ℕ → HS → ℕ × HS × ℕ
  | 0, s => (0, s, 0)
  | t + 1, s =>
    match HS.timestepModel hid kin1 kin2 s with
    | Except.error _ => (0, s, 1)
    | Except.ok s' =>
      ((HS.runModel hid kin1 kin2 t s').1 + 1,
       (HS.runModel hid kin1 kin2 t s').2.1,
       (HS.runModel hid kin1 kin2 t s').2.2)

/-- Generalized induction for `HS.runModel`: starting from clock `c`, the
run completes with `t` records, exit 0 and clock `c + t` when `c + t < L`,
and stops with `L - 1 - c` records and exit 1 when the traces are exhausted
(`L ≤ c + t`, entered with `c < L`). -/
theorem runModel_spec (hid : List (List ℕ) → ℝ) (kin1 kin2 : HS → HS)
    (hk1 : PreservesBC kin1) (hk2 : PreservesBC kin2) (td : TimeDep) (L : ℕ)
    (h1 : KeyLen td.lattice_spacing L) (h2 : KeyLen td.z_line L)
    (h3 : KeyLen td.pCa L)
    (hone : td.lattice_spacing ≠ none ∨ td.z_line ≠ none ∨ td.pCa ≠ none) :
    ∀ (t : ℕ) (s : HS), s.time_dependence = some td →
      (s.current_timestep + t < L →
        (HS.runModel hid kin1 kin2 t s).1 = t
        ∧ (HS.runModel hid kin1 kin2 t s).2.2 = 0
        ∧ (HS.runModel hid kin1 kin2 t s).2.1.current_timestep
            = s.current_timestep + t)
      ∧ (L ≤ s.current_timestep + t → s.current_timestep < L →
        (HS.runModel hid kin1 kin2 t s).1 = L - 1 - s.current_timestep
        ∧ (HS.runModel hid kin1 kin2 t s).2.2 = 1) := by
  intro t
  induction t with
  | zero =>
    intro s hstd
    constructor
    · intro _
      exact ⟨rfl, rfl, by simp [HS.runModel]⟩
    · intro hge hlt
      exact absurd hge (by omega)
  | succ t ih =>
    intro s hstd
    rcases Nat.lt_or_ge (s.current_timestep + 1) L with hlt1 | hge1
    · obtain ⟨s', hok, hcur, htd'⟩ := setCurrentTimestep_ok_of_lt hid s td
        (s.current_timestep + 1) L hstd h1 h2 h3 hlt1
      have hts : HS.timestepModel hid kin1 kin2 s =
          Except.ok (kin2 (HS.update_concentrations (kin1 s'))) := by
        simp only [HS.timestepModel, hok, except_bind_ok, except_pure_def]
      have hcur2 : (kin2 (HS.update_concentrations (kin1 s'))).current_timestep
          = s.current_timestep + 1 := by
        rw [(hk2 _).1,
          show (HS.update_concentrations (kin1 s')).current_timestep
            = (kin1 s').current_timestep from rfl,
          (hk1 _).1, hcur]
      have htd2 : (kin2 (HS.update_concentrations (kin1 s'))).time_dependence
          = some td := by
        rw [(hk2 _).2,
          show (HS.update_concentrations (kin1 s')).time_dependence
            = (kin1 s').time_dependence from rfl,
          (hk1 _).2, htd']
      have hrun1 : (HS.runModel hid kin1 kin2 (t + 1) s).1 =
          (HS.runModel hid kin1 kin2 t
            (kin2 (HS.update_concentrations (kin1 s')))).1 + 1 := by
        simp [HS.runModel, hts]
      have hrun2 : (HS.runModel hid kin1 kin2 (t + 1) s).2.1 =
          (HS.runModel hid kin1 kin2 t
            (kin2 (HS.update_concentrations (kin1 s')))).2.1 := by
        simp [HS.runModel, hts]
      have hrun3 : (HS.runModel hid kin1 kin2 (t + 1) s).2.2 =
          (HS.runModel hid kin1 kin2 t
            (kin2 (HS.update_concentrations (kin1 s')))).2.2 := by
        simp [HS.runModel, hts]
      obtain ⟨ihA, ihB⟩ := ih (kin2 (HS.update_concentrations (kin1 s'))) htd2
      constructor
      · intro hlt
        have h' : (kin2 (HS.update_concentrations (kin1 s'))).current_timestep
            + t < L := by rw [hcur2]; omega
        obtain ⟨e1, e2, e3⟩ := ihA h'
        refine ⟨?_, ?_, ?_⟩
        · rw [hrun1, e1]
        · rw [hrun3, e2]
        · rw [hrun2, e3, hcur2]
          omega
      · intro hge hltc
        have hge' : L ≤ (kin2 (HS.update_concentrations (kin1 s'))).current_timestep
            + t := by rw [hcur2]; omega
        obtain ⟨e1, e2⟩ := ihB hge' (by rw [hcur2]; exact hlt1)
        refine ⟨?_, ?_⟩
        · rw [hrun1, e1, hcur2]
          omega
        · rw [hrun3, e2]
    · have herr := setCurrentTimestep_err_of_le hid s td
        (s.current_timestep + 1) L hstd h1 h2 h3 hone hge1
      have hts : HS.timestepModel hid kin1 kin2 s = Except.error () := by
        simp only [HS.timestepModel, herr, except_bind_err]
      have hrun : HS.runModel hid kin1 kin2 (t + 1) s = (0, s, 1) := by
        simp [HS.runModel, hts]
      constructor
      · intro hlt
        exact absurd hlt (by omega)
      · intro hge hltc
        rw [hrun]
        exact ⟨by simp; omega, rfl⟩

/-- Claim C9: each `timestep()` increments `current_timestep` before
applying the boundary conditions, so the k-th step of `run()` indexes the
time-dependence traces at k (index 0 was consumed at construction);
`run(time_steps=t)` completes all `t` steps (exit 0, `t` records, clock at
`t`) exactly when `t ≤ L − 1`, and for `t ≥ L` the `IndexError` raised at
step `L` is caught and `run` returns the partial output of `L − 1` records
with exit status 1. -/
theorem run_exits_on_time_dependence_exhaustion
    (hid : List (List ℕ) → ℝ) (kin1 kin2 : HS → HS)
    (hk1 : PreservesBC kin1) (hk2 : PreservesBC kin2)
    (s : HS) (td : TimeDep) (L t : ℕ)
    (hstd : s.time_dependence = some td) (hc0 : s.current_timestep = 0)
    (h1 : KeyLen td.lattice_spacing L) (h2 : KeyLen td.z_line L)
    (h3 : KeyLen td.pCa L)
    (hone : td.lattice_spacing ≠ none ∨ td.z_line ≠ none ∨ td.pCa ≠ none)
    (hL : 1 ≤ L) :
    (∀ x, HS.timestepModel hid kin1 kin2 x =
      Except.map (fun y => kin2 (HS.update_concentrations (kin1 y)))
        (HS.setCurrentTimestep hid x (x.current_timestep + 1)))
    ∧ ((HS.runModel hid kin1 kin2 t s).2.2 = 0 ↔ t ≤ L - 1)
    ∧ (t ≤ L - 1 →
        (HS.runModel hid kin1 kin2 t s).1 = t
        ∧ (HS.runModel hid kin1 kin2 t s).2.1.current_timestep = t)
    ∧ (L ≤ t →
        (HS.runModel hid kin1 kin2 t s).1 = L - 1
        ∧ (HS.runModel hid kin1 kin2 t s).2.2 = 1) := by
  obtain ⟨A, B⟩ := runModel_spec hid kin1 kin2 hk1 hk2 td L h1 h2 h3 hone t s hstd
  rw [hc0] at A B
  refine ⟨?_, ⟨?_, ?_⟩, ?_, ?_⟩
  · intro x
    cases h : HS.setCurrentTimestep hid x (x.current_timestep + 1) <;>
      simp [HS.timestepModel, h, except_bind_ok, except_bind_err,
        except_pure_def, Except.map]
  · intro h0
    by_contra hgt
    have := (B (by omega) (by omega)).2
    rw [this] at h0
    exact absurd h0 (by omega)
  · intro hle
    exact (A (by omega)).2.1
  · intro hle
    obtain ⟨e1, _, e3⟩ := A (by omega)
    exact ⟨e1, by rw [e3]; omega⟩
  · intro hge
    obtain ⟨e1, e2⟩ := B (by omega) (by omega)
    exact ⟨by rw [e1]; omega, e2⟩

/-- A concrete two-entry pCa trace. -/
def td9 : TimeDep :=
  { lattice_spacing := none, z_line := none, pCa := some [4, 4] }

/-- `hsBase` configured with the two-entry `pCa` trace `td9`. -/
def hs9 : HS :=
  { hsBase with time_dependence := some td9 }

/-- Witness for claim C9: with traces of length `L = 2`, a run of
`t = 2 ≥ L` steps stops after `L − 1 = 1` record with exit status 1. -/
theorem run_exits_on_time_dependence_exhaustion_witness :
    hs9.time_dependence = some td9 ∧ hs9.current_timestep = 0
    ∧ (HS.runModel (fun _ => 0) id id 2 hs9).1 = 2 - 1
    ∧ (HS.runModel (fun _ => 0) id id 2 hs9).2.2 = 1 :=
  ⟨rfl, rfl,
   ((run_exits_on_time_dependence_exhaustion (fun _ => 0) id id
       (fun _ => ⟨rfl, rfl⟩) (fun _ => ⟨rfl, rfl⟩) hs9 td9 2 2 rfl rfl
       (Or.inl rfl) (Or.inl rfl) (Or.inr ⟨[4, 4], rfl, rfl⟩)
       (Or.inr (Or.inr (by simp [td9]))) (by omega)).2.2.2
     (by omega)).1,
   ((run_exits_on_time_dependence_exhaustion (fun _ => 0) id id
       (fun _ => ⟨rfl, rfl⟩) (fun _ => ⟨rfl, rfl⟩) hs9 td9 2 2 rfl rfl
       (Or.inl rfl) (Or.inl rfl) (Or.inr ⟨[4, 4], rfl, rfl⟩)
       (Or.inr (Or.inr (by simp [td9]))) (by omega)).2.2.2
     (by omega)).2⟩
